import Mathlib

/-! # tuw_multi_robot_route_to_path : MultiRobotRouteToPathNode

A shallow embedding of `MultiRobotRouteToPathNode.cpp` (the ROS node that
turns per-robot segment routes into synchronised paths) together with the
properties of its three member functions `subOdomCb`, `publishPath` and
`subSegPathCb`.

Conventions of the embedding

* Floating point scalars are an arbitrary type `R`; the few floating point
  operations the node performs (`-`, `atan2`, the narrowing to `float`, the
  yaw-to-quaternion conversion) are fields of `FloatOps R`.
* The two collaborator classes of the node, the per-robot tracker
  (`observer_[i]`, methods `init` and `getStep`) and the per-robot gate
  (`converter_[i]`, methods `init` and `updateSync`), are not defined in
  `MultiRobotRouteToPathNode.cpp`.  They are the fields of `Components R`.
  `updateSync` receives the step vector read-only.
* Every handler returns the new node state together with the ordered list
  of calls it made to its collaborators (`Call`), return values included.
* Indexing a `std::vector` out of range is undefined behaviour; the handlers
  return `none` there.
-/

namespace tuw_multi_robot_route_to_path

/-! ## Value types -/

/-- The type `Eigen::Vector2d`: components `[0]` and `[1]`. -/
structure Vector2d (R : Type) where
  c0 : R
  c1 : R
  deriving DecidableEq, Repr

/-- The type `Eigen::Vector3d`: components `[0]`, `[1]` and `[2]`. -/
structure Vector3d (R : Type) where
  c0 : R
  c1 : R
  c2 : R
  deriving DecidableEq, Repr

/-- The node-side `PathPrecondition` (fields `robot_no`, `step`). -/
structure PathPrecondition where
  robot_no : Int
  step : Int
  deriving DecidableEq, Repr

/-- The node-side `SyncedPathPoint` (fields `p`, `sync`). -/
structure SyncedPathPoint (R : Type) where
  p : Vector3d R
  sync : List PathPrecondition
  deriving DecidableEq, Repr

/-- The node-side `PathSegment` (fields `start`, `goal`, `width`). -/
structure PathSegment (R : Type) where
  start : Vector2d R
  goal : Vector2d R
  width : R
  deriving DecidableEq, Repr

/-! ## Messages -/

namespace msgs

/-- The message `geometry_msgs::Point`. -/
structure Point (R : Type) where
  x : R
  y : R
  z : R
  deriving DecidableEq, Repr

/-- The message `geometry_msgs::Quaternion`. -/
structure Quaternion (R : Type) where
  x : R
  y : R
  z : R
  w : R
  deriving DecidableEq, Repr

/-- The message `tuw_multi_robot_msgs::PathPrecondition`. -/
structure PathPrecondition where
  robotId : Int
  stepCondition : Int
  deriving DecidableEq, Repr

/-- The message `tuw_multi_robot_msgs::PathSegment`; `end_` is its field `end`. -/
structure PathSegment (R : Type) where
  start : Point R
  end_ : Point R
  width : R
  preconditions : List PathPrecondition
  deriving DecidableEq, Repr

/-- The message `tuw_multi_robot_msgs::SegmentPath`, reduced to the field the node reads. -/
structure SegmentPath (R : Type) where
  poses : List (PathSegment R)
  deriving DecidableEq, Repr

/-- The message `nav_msgs::Odometry`, reduced to `pose.pose.position`. -/
structure Odometry (R : Type) where
  position : Point R
  deriving DecidableEq, Repr

/-- The message `std_msgs::Header`; `stamp` is a clock reading. -/
structure Header where
  seq : Nat
  stamp : Nat
  frame_id : String
  deriving DecidableEq, Repr

/-- The message `geometry_msgs::Pose`. -/
structure Pose (R : Type) where
  position : Point R
  orientation : Quaternion R
  deriving DecidableEq, Repr

/-- The message `geometry_msgs::PoseStamped`. -/
structure PoseStamped (R : Type) where
  header : Header
  pose : Pose R
  deriving DecidableEq, Repr

/-- The message `nav_msgs::Path`. -/
structure Path (R : Type) where
  header : Header
  poses : List (PoseStamped R)
  deriving DecidableEq, Repr

end msgs

/-! ## Collaborators -/

/-- The floating point operations used by the node.  `zero` is the value a
freshly constructed message field holds, `toFloat` the narrowing of
`float angle = ...`, `angleAxisZ` the quaternion of
`Eigen::AngleAxisf(yaw, Eigen::Vector3f::UnitZ())`, and `now k` the `k`-th
reading of `ros::Time::now()` made while one path is assembled. -/
structure FloatOps (R : Type) where
  zero : R
  sub : R → R → R
  atan2 : R → R → R
  toFloat : R → R
  angleAxisZ : R → msgs.Quaternion R
  now : Nat → Nat

/-- The tracker and gate classes used by the node (their definitions are not
part of `MultiRobotRouteToPathNode.cpp`).

* `observerNew` is `observer_.emplace_back()`, `converterNew n i` is
  `converter_.emplace_back(n, i)`;
* `getStep o pt` is `o.getStep(pt, changed)` called with `changed == false`:
  the tracker afterwards, the returned step, and `changed` afterwards;
* `updateSync g steps changed` is `g.updateSync(steps, changed)`: the gate
  afterwards, the returned path, and `changed` afterwards. -/
structure Components (R : Type) where
  Observer : Type
  Converter : Type
  observerNew : Observer
  converterNew : Nat → Nat → Converter
  observerInit : Observer → List (PathSegment R) → Observer
  getStep : Observer → Vector2d R → Observer × Int × Bool
  converterInit : Converter → List (SyncedPathPoint R) → Converter
  updateSync : Converter → List Int → Bool → Converter × List (Vector3d R) × Bool

/-- One call made by a handler to a collaborator, in program order; for
`updateSync` the record also holds what the call returned. -/
inductive Call (R : Type) where
  | getStep (topic : Nat) (pt : Vector2d R) (step : Int) (changed : Bool)
  | converterInit (topic : Nat) (localPath : List (SyncedPathPoint R))
  | observerInit (topic : Nat) (segPath : List (PathSegment R))
  | updateSync (i : Nat) (robot_steps : List Int) (changedIn : Bool)
      (newPath : List (Vector3d R)) (changedOut : Bool)
  | publishPath (p : List (Vector3d R)) (topic : Nat)
  deriving DecidableEq, Repr

/-! ## The node -/

/-- The data members of `MultiRobotRouteToPathNode` that the handlers use. -/
structure MultiRobotRouteToPathNode (R : Type) (C : Components R) where
  no_robots_ : Nat
  robot_steps_ : List Int
  converter_ : List C.Converter
  observer_ : List C.Observer

/-- The constructor, for `robot_names_.size() = n`: `robot_steps_.resize(n)`
gives `n` zeros, and the first loop emplaces `n` gates and `n` trackers. -/
def MultiRobotRouteToPathNode.ctor {R : Type} (C : Components R) (n : Nat) :
    MultiRobotRouteToPathNode R C :=
  { no_robots_ := n
    robot_steps_ := List.replicate n 0
    converter_ := (List.range n).map (fun i => C.converterNew n i)
    observer_ := List.replicate n C.observerNew }

/-- The sizes the constructor establishes: every per-robot vector has
`no_robots_` entries. -/
def MultiRobotRouteToPathNode.Sized {R : Type} {C : Components R}
    (s : MultiRobotRouteToPathNode R C) : Prop :=
  s.robot_steps_.length = s.no_robots_ ∧ s.converter_.length = s.no_robots_ ∧
    s.observer_.length = s.no_robots_

/-- The body of `for(int i = 0; i < no_robots_; i++)` in `subOdomCb`, with
`k` iterations left from index `i`: the gate of robot `i` is evaluated on
`robot_steps`, and its path is published when `changed` is set afterwards. -/
def subOdomCb.loop {R : Type} (C : Components R) (robot_steps : List Int) :
    Nat → Nat → List C.Converter → Bool → Option (List C.Converter × List (Call R))
  | 0, _, conv, _ => some (conv, [])
  | k + 1, i, conv, changed =>
    match conv[i]? with
    | none => none
    | some g =>
      let r := C.updateSync g robot_steps changed
      let here : List (Call R) :=
        Call.updateSync i robot_steps changed r.2.1 r.2.2 ::
          (if r.2.2 then [Call.publishPath r.2.1 i] else [])
      match subOdomCb.loop C robot_steps k (i + 1) (conv.set i r.1) r.2.2 with
      | none => none
      | some (conv', rest) => some (conv', here ++ rest)

/-- The handler `subOdomCb(_event, _topic)`. -/
def subOdomCb {R : Type} (C : Components R) (s : MultiRobotRouteToPathNode R C)
    (odom : msgs.Odometry R) (_topic : Nat) :
    Option (MultiRobotRouteToPathNode R C × List (Call R)) :=
  let pt : Vector2d R := ⟨odom.position.x, odom.position.y⟩
  match s.observer_[_topic]? with
  | none => none
  | some o =>
    if _topic < s.robot_steps_.length then
      let t := C.getStep o pt
      let steps := s.robot_steps_.set _topic t.2.1
      let s1 : MultiRobotRouteToPathNode R C :=
        { s with robot_steps_ := steps, observer_ := s.observer_.set _topic t.1 }
      let first : Call R := Call.getStep _topic pt t.2.1 t.2.2
      if t.2.2 then
        match subOdomCb.loop C steps s.no_robots_ 0 s.converter_ true with
        | none => none
        | some (conv, calls) => some ({ s1 with converter_ := conv }, first :: calls)
      else
        some (s1, [first])
    else none

/-- The loop of `publishPath` over `_p`: the pose built from `p` is pushed
to the back of `poses`; `k` counts the clock readings made so far. -/
def publishPath.loop {R : Type} (F : FloatOps R) :
    List (Vector3d R) → Nat → List (msgs.PoseStamped R) → List (msgs.PoseStamped R)
  | [], _, poses => poses
  | p :: rest, k, poses =>
    let q := F.angleAxisZ p.c2
    let ps : msgs.PoseStamped R :=
      { header := { seq := 0, stamp := F.now k, frame_id := "map" }
        pose := { position := { x := p.c0, y := p.c1, z := F.zero }
                  orientation := { x := q.x, y := q.y, z := q.z, w := q.w } } }
    publishPath.loop F rest (k + 1) (poses ++ [ps])

/-- The function `publishPath(_p, _topic)`: the publisher index and the
message handed to `pubPath_[_topic].publish`. -/
def publishPath {R : Type} (F : FloatOps R) (_p : List (Vector3d R)) (_topic : Nat) :
    Nat × msgs.Path R :=
  (_topic,
    { header := { seq := 0, stamp := F.now 0, frame_id := "map" }
      poses := publishPath.loop F _p 1 [] })

/-- The inner loop of `subSegPathCb` over `seg.preconditions`, pushing each
converted precondition to the back of `spp.sync`. -/
def subSegPathCb.syncLoop :
    List msgs.PathPrecondition → List PathPrecondition → List PathPrecondition
  | [], sync => sync
  | pc :: rest, sync =>
    subSegPathCb.syncLoop rest (sync ++ [{ robot_no := pc.robotId, step := pc.stepCondition }])

/-- The `PathSegment ps` that one iteration of the outer loop of
`subSegPathCb` fills from the message segment `seg`. -/
def subSegPathCb.ps {R : Type} (seg : msgs.PathSegment R) : PathSegment R :=
  { start := ⟨seg.start.x, seg.start.y⟩
    goal := ⟨seg.end_.x, seg.end_.y⟩
    width := seg.width }

/-- The `SyncedPathPoint spp` that one iteration of the outer loop of
`subSegPathCb` fills from the message segment `seg`: the end point, the
angle of the segment, and the converted preconditions. -/
def subSegPathCb.spp {R : Type} (F : FloatOps R) (seg : msgs.PathSegment R) : SyncedPathPoint R :=
  let angle := F.toFloat (F.atan2 (F.sub seg.end_.y seg.start.y) (F.sub seg.end_.x seg.start.x))
  { p := ⟨seg.end_.x, seg.end_.y, angle⟩
    sync := subSegPathCb.syncLoop seg.preconditions [] }

/-- The outer loop of `subSegPathCb` over `path->poses`, pushing one
`SyncedPathPoint` to `localPath` and one `PathSegment` to `segPath` per
message segment. -/
def subSegPathCb.loop {R : Type} (F : FloatOps R) :
    List (msgs.PathSegment R) → List (SyncedPathPoint R) × List (PathSegment R) →
      List (SyncedPathPoint R) × List (PathSegment R)
  | [], acc => acc
  | seg :: rest, (localPath, segPath) =>
    subSegPathCb.loop F rest
      (localPath ++ [subSegPathCb.spp F seg], segPath ++ [subSegPathCb.ps seg])

/-- The handler `subSegPathCb(_event, _topic)`. -/
def subSegPathCb {R : Type} (F : FloatOps R) (C : Components R)
    (s : MultiRobotRouteToPathNode R C) (path : msgs.SegmentPath R) (_topic : Nat) :
    Option (MultiRobotRouteToPathNode R C × List (Call R)) :=
  if path.poses.length = 0 then some (s, [])
  else
    let built := subSegPathCb.loop F path.poses ([], [])
    match s.converter_[_topic]?, s.observer_[_topic]? with
    | some g, some o =>
      let g1 := C.converterInit g built.1
      let o1 := C.observerInit o built.2
      let steps := List.replicate s.robot_steps_.length (0 : Int)
      let r := C.updateSync g1 steps false
      some ({ s with
                converter_ := s.converter_.set _topic r.1
                observer_ := s.observer_.set _topic o1
                robot_steps_ := steps },
            [Call.converterInit _topic built.1, Call.observerInit _topic built.2,
              Call.updateSync _topic steps false r.2.1 r.2.2] ++
              (if r.2.2 then [Call.publishPath r.2.1 _topic] else []))
    | _, _ => none

/-! ## Observations on the call list -/

/-- The gate evaluations in a call list: robot index and step vector
received, in call order. -/
def gateEvals {R : Type} : List (Call R) → List (Nat × List Int)
  | [] => []
  | Call.updateSync i steps _ _ _ :: rest => (i, steps) :: gateEvals rest
  | _ :: rest => gateEvals rest

/-- The gate results in a call list: robot index, returned path and
returned `changed` flag, in call order. -/
def gateResults {R : Type} : List (Call R) → List (Nat × List (Vector3d R) × Bool)
  | [] => []
  | Call.updateSync i _ _ newPath changedOut :: rest => (i, newPath, changedOut) :: gateResults rest
  | _ :: rest => gateResults rest

/-- The `publishPath` calls in a call list: robot index and path, in call order. -/
def published {R : Type} : List (Call R) → List (Nat × List (Vector3d R))
  | [] => []
  | Call.publishPath p topic :: rest => (topic, p) :: published rest
  | _ :: rest => published rest

/-- The gate results whose `changed` flag is set, as (robot index, path). -/
def flaggedPath {R : Type} (r : Nat × List (Vector3d R) × Bool) : Option (Nat × List (Vector3d R)) :=
  if r.2.2 then some (r.1, r.2.1) else none

/-- An event delivered to the node: a position sample or a segment path,
each for the robot the subscription was bound to. -/
inductive Event (R : Type) where
  | odom (topic : Nat) (m : msgs.Odometry R)
  | segPath (topic : Nat) (m : msgs.SegmentPath R)
  deriving DecidableEq, Repr

/-- Deliver one event to the node and keep the state. -/
def deliver {R : Type} (F : FloatOps R) (C : Components R)
    (s : MultiRobotRouteToPathNode R C) : Event R → Option (MultiRobotRouteToPathNode R C)
  | Event.odom topic m => (subOdomCb C s m topic).map Prod.fst
  | Event.segPath topic m => (subSegPathCb F C s m topic).map Prod.fst

/-- Deliver a sequence of events, one after the other. -/
def run {R : Type} (F : FloatOps R) (C : Components R) :
    List (Event R) → MultiRobotRouteToPathNode R C → Option (MultiRobotRouteToPathNode R C)
  | [], s => some s
  | e :: rest, s =>
    match deliver F C s e with
    | none => none
    | some s1 => run F C rest s1

/-! ## Sample collaborators over integer coordinates -/

/-- Modelled from the spec: the per-robot progress tracker behind
`observer_[i]` (its class is not defined in `MultiRobotRouteToPathNode.cpp`),
following section 4.1: state `segments` and `currentStep`. -/
structure SpecTracker where
  segments : List (PathSegment Int)
  currentStep : Nat
  deriving DecidableEq, Repr

/-- Modelled from the spec: tracker `init(segments)` of section 4.1, which
replaces the segment sequence and resets `currentStep` to 0, and is a no-op
when `segments` is empty. -/
def SpecTracker.init (t : SpecTracker) (segments : List (PathSegment Int)) : SpecTracker :=
  if segments.isEmpty then t else { segments := segments, currentStep := 0 }

/-- Modelled from the spec: the test "position lies within `width` of the
goal endpoint" of section 4.1 (Euclidean distance at most `width`), on
integer coordinates as a comparison of squares; a negative width admits
no position. -/
def SpecTracker.atGoal (seg : PathSegment Int) (position : Vector2d Int) : Bool :=
  decide (0 ≤ seg.width) &&
    decide ((position.c0 - seg.goal.c0) * (position.c0 - seg.goal.c0) +
      (position.c1 - seg.goal.c1) * (position.c1 - seg.goal.c1) ≤ seg.width * seg.width)

/-- Modelled from the spec: tracker `update(position)` of section 4.1.  With
no segments it returns `(0, false)`; when the position is at the goal of
segment `currentStep` and `currentStep + 1 < length(segments)` it advances
by one and reports `changed = true`; otherwise it reports the current step
and `changed = false`. -/
def SpecTracker.update (t : SpecTracker) (position : Vector2d Int) : SpecTracker × Int × Bool :=
  match t.segments[t.currentStep]? with
  | none => if t.segments.isEmpty then (t, 0, false) else (t, (t.currentStep : Int), false)
  | some seg =>
    if SpecTracker.atGoal seg position && decide (t.currentStep + 1 < t.segments.length) then
      ({ t with currentStep := t.currentStep + 1 }, ((t.currentStep + 1 : Nat) : Int), true)
    else (t, (t.currentStep : Int), false)

/-- Modelled from the spec: the per-robot gate behind `converter_[i]` (its
class is not defined in `MultiRobotRouteToPathNode.cpp`), following sections
4.2 and 4.3: the point sequence, the cursor, and the path last emitted. -/
structure SpecGate where
  points : List (SyncedPathPoint Int)
  cursor : Nat
  lastEmitted : List (Vector3d Int)
  deriving DecidableEq, Repr

/-- Modelled from the spec: gate `init(points)` of section 4.2, which
replaces the sequence and resets the cursor. -/
def SpecGate.init (_g : SpecGate) (points : List (SyncedPathPoint Int)) : SpecGate :=
  { points := points, cursor := 0, lastEmitted := [] }

/-- Modelled from the spec: a precondition of section 4.2 holds when the
step of robot `robotId` is at least the required step; a robot index that
does not exist never holds. -/
def SpecGate.holds (steps : List Int) (pc : PathPrecondition) : Bool :=
  if 0 ≤ pc.robot_no then
    match steps[pc.robot_no.toNat]? with
    | some v => decide (pc.step ≤ v)
    | none => false
  else false

/-- Modelled from the spec: `computeUnlockedPath(cursor)` of section 4.2,
the consecutive unlocked points from the cursor up to the first locked one. -/
def SpecGate.computeUnlockedPath (g : SpecGate) (steps : List Int) : List (Vector3d Int) :=
  ((g.points.drop g.cursor).takeWhile (fun pt => pt.sync.all (SpecGate.holds steps))).map
    (fun pt => pt.p)

/-- Modelled from the spec: one gate evaluation of the recomputation pass of
section 4.3: a computed path that is non-empty and differs from the last
emitted one is flagged, and the cursor advances by its length. -/
def SpecGate.updateSync (g : SpecGate) (steps : List Int) (_changed : Bool) :
    SpecGate × List (Vector3d Int) × Bool :=
  let path := g.computeUnlockedPath steps
  if !path.isEmpty && decide (path ≠ g.lastEmitted) then
    ({ g with cursor := g.cursor + path.length, lastEmitted := path }, path, true)
  else (g, path, false)

/-- Modelled from the spec: the tracker and the gate of sections 4.1 to 4.3
as the collaborators of the node. -/
def specComponents : Components Int :=
  { Observer := SpecTracker
    Converter := SpecGate
    observerNew := { segments := [], currentStep := 0 }
    converterNew := fun _ _ => { points := [], cursor := 0, lastEmitted := [] }
    observerInit := SpecTracker.init
    getStep := SpecTracker.update
    converterInit := SpecGate.init
    updateSync := SpecGate.updateSync }

/-- Integer stand-ins for the floating point operations (the angle and the
quaternion are not computed; the clock reads its own index). -/
def sampleOps : FloatOps Int :=
  { zero := 0
    sub := fun a b => a - b
    atan2 := fun _ _ => 0
    toFloat := fun a => a
    angleAxisZ := fun _ => { x := 0, y := 0, z := 0, w := 1 }
    now := fun k => k }

/-- A message segment from `(sx, sy)` to `(ex, ey)` of the given width and
preconditions. -/
def sampleSeg (sx sy ex ey w : Int) (pre : List msgs.PathPrecondition) : msgs.PathSegment Int :=
  { start := { x := sx, y := sy, z := 0 }
    end_ := { x := ex, y := ey, z := 0 }
    width := w
    preconditions := pre }

/-- A two-segment route along the x axis: goals `(1,0)` and `(2,0)`, width 1,
the second segment waiting for robot 0 to reach step 1. -/
def sampleRoute : msgs.SegmentPath Int :=
  { poses := [sampleSeg 0 0 1 0 1 [], sampleSeg 1 0 2 0 1 [{ robotId := 0, stepCondition := 1 }]] }

/-- A position sample at `(x, y)`. -/
def sampleOdom (x y : Int) : msgs.Odometry Int :=
  { position := { x := x, y := y, z := 0 } }

/-- The tracker of `specComponents` holding the two segments of
`sampleRoute`, at step 0. -/
def sampleTracker : SpecTracker :=
  { segments := [{ start := ⟨0, 0⟩, goal := ⟨1, 0⟩, width := 1 },
                 { start := ⟨1, 0⟩, goal := ⟨2, 0⟩, width := 1 }]
    currentStep := 0 }

/-- The gate of `specComponents` holding the two points of `sampleRoute`
after the first one has been emitted. -/
def sampleGate : SpecGate :=
  { points := [{ p := ⟨1, 0, 0⟩, sync := [] },
               { p := ⟨2, 0, 0⟩, sync := [{ robot_no := 0, step := 1 }] }]
    cursor := 1
    lastEmitted := [⟨1, 0, 0⟩] }

/-- The two-robot node after `sampleRoute` was assigned to robot 1. -/
def sampleNode : MultiRobotRouteToPathNode Int specComponents :=
  { no_robots_ := 2
    robot_steps_ := [0, 0]
    converter_ := [{ points := [], cursor := 0, lastEmitted := [] }, sampleGate]
    observer_ := [{ segments := [], currentStep := 0 }, sampleTracker] }

/-- The two-robot node after `sampleRoute` was assigned to robot 1, robot 1
reached step 1, and `sampleRoute` was then assigned to robot 0. -/
def sampleNodeLater : MultiRobotRouteToPathNode Int specComponents :=
  { no_robots_ := 2
    robot_steps_ := [0, 0]
    converter_ := [sampleGate, sampleGate]
    observer_ := [sampleTracker, { sampleTracker with currentStep := 1 }] }

/-! ## Lemmas on the loops -/

theorem syncLoop_eq_append_map (pcs : List msgs.PathPrecondition) (sync : List PathPrecondition) :
    subSegPathCb.syncLoop pcs sync =
      sync ++ pcs.map (fun pc => ({ robot_no := pc.robotId, step := pc.stepCondition } :
        PathPrecondition)) := by
  induction pcs generalizing sync with
  | nil => simp [subSegPathCb.syncLoop]
  | cons pc rest ih => simp [subSegPathCb.syncLoop, ih]

theorem segLoop_eq_append_map {R : Type} (F : FloatOps R) (poses : List (msgs.PathSegment R))
    (acc : List (SyncedPathPoint R) × List (PathSegment R)) :
    subSegPathCb.loop F poses acc =
      (acc.1 ++ poses.map (subSegPathCb.spp F), acc.2 ++ poses.map subSegPathCb.ps) := by
  induction poses generalizing acc with
  | nil => simp [subSegPathCb.loop]
  | cons seg rest ih =>
    obtain ⟨lp, sp⟩ := acc
    simp [subSegPathCb.loop, ih]

theorem publishLoop_positions {R : Type} (F : FloatOps R) (_p : List (Vector3d R)) (k : Nat)
    (poses : List (msgs.PoseStamped R)) :
    (publishPath.loop F _p k poses).map (fun ps => (ps.pose.position.x, ps.pose.position.y)) =
      poses.map (fun ps => (ps.pose.position.x, ps.pose.position.y)) ++
        _p.map (fun p => (p.c0, p.c1)) := by
  induction _p generalizing k poses with
  | nil => simp [publishPath.loop]
  | cons p rest ih => simp [publishPath.loop, ih]

theorem gateEvals_append {R : Type} (a b : List (Call R)) :
    gateEvals (a ++ b) = gateEvals a ++ gateEvals b := by
  induction a with
  | nil => rfl
  | cons c rest ih => cases c <;> simp [gateEvals, ih]

theorem gateResults_append {R : Type} (a b : List (Call R)) :
    gateResults (a ++ b) = gateResults a ++ gateResults b := by
  induction a with
  | nil => rfl
  | cons c rest ih => cases c <;> simp [gateResults, ih]

theorem published_append {R : Type} (a b : List (Call R)) :
    published (a ++ b) = published a ++ published b := by
  induction a with
  | nil => rfl
  | cons c rest ih => cases c <;> simp [published, ih]

/-- The loop of `subOdomCb` runs to its end when the gate vector covers the
indices it visits; it evaluates the gates `i, i+1, ..., i+k-1` in this
order, each on `robot_steps`, and publishes exactly the flagged results. -/
theorem odomLoop_total {R : Type} (C : Components R) (robot_steps : List Int) :
    ∀ (k i : Nat) (conv : List C.Converter) (changed : Bool), i + k ≤ conv.length →
      ∃ conv1 calls, subOdomCb.loop C robot_steps k i conv changed = some (conv1, calls) ∧
        conv1.length = conv.length ∧
        gateEvals calls = (List.range' i k).map (fun j => (j, robot_steps)) ∧
        published calls = (gateResults calls).filterMap flaggedPath := by
  intro k
  induction k with
  | zero =>
    intro i conv changed _
    exact ⟨conv, [], rfl, rfl, rfl, rfl⟩
  | succ k ih =>
    intro i conv changed h
    have hi : i < conv.length := by omega
    obtain ⟨conv1, rest, hrun, hlen, hev, hpub⟩ :=
      ih (i + 1) (conv.set i (C.updateSync conv[i] robot_steps changed).1)
        (C.updateSync conv[i] robot_steps changed).2.2 (by simp; omega)
    refine ⟨conv1,
      (Call.updateSync i robot_steps changed (C.updateSync conv[i] robot_steps changed).2.1
          (C.updateSync conv[i] robot_steps changed).2.2 ::
        (if (C.updateSync conv[i] robot_steps changed).2.2 then
          [Call.publishPath (C.updateSync conv[i] robot_steps changed).2.1 i] else [])) ++ rest,
      ?_, ?_, ?_, ?_⟩
    · simp only [subOdomCb.loop, List.getElem?_eq_getElem hi, hrun]
    · simpa using hlen
    · cases hc : (C.updateSync conv[i] robot_steps changed).2.2 <;>
        simp [gateEvals, hev, List.range'_succ]
    · cases hc : (C.updateSync conv[i] robot_steps changed).2.2 <;>
        simp [gateResults, published, flaggedPath, hpub, hc, published_append, gateResults_append]

/-! ## Closed forms of the handlers -/

theorem subSegPathCb_of_nonempty {R : Type} (F : FloatOps R) (C : Components R)
    (s : MultiRobotRouteToPathNode R C) (path : msgs.SegmentPath R) (r : Nat)
    (g : C.Converter) (o : C.Observer) (hne : path.poses ≠ [])
    (hg : s.converter_[r]? = some g) (ho : s.observer_[r]? = some o) :
    subSegPathCb F C s path r =
      some ({ s with
                converter_ := s.converter_.set r
                  (C.updateSync (C.converterInit g (path.poses.map (subSegPathCb.spp F)))
                    (List.replicate s.robot_steps_.length 0) false).1
                observer_ := s.observer_.set r (C.observerInit o (path.poses.map subSegPathCb.ps))
                robot_steps_ := List.replicate s.robot_steps_.length 0 },
            [Call.converterInit r (path.poses.map (subSegPathCb.spp F)),
              Call.observerInit r (path.poses.map subSegPathCb.ps),
              Call.updateSync r (List.replicate s.robot_steps_.length 0) false
                (C.updateSync (C.converterInit g (path.poses.map (subSegPathCb.spp F)))
                  (List.replicate s.robot_steps_.length 0) false).2.1
                (C.updateSync (C.converterInit g (path.poses.map (subSegPathCb.spp F)))
                  (List.replicate s.robot_steps_.length 0) false).2.2] ++
              (if (C.updateSync (C.converterInit g (path.poses.map (subSegPathCb.spp F)))
                  (List.replicate s.robot_steps_.length 0) false).2.2 then
                [Call.publishPath
                  (C.updateSync (C.converterInit g (path.poses.map (subSegPathCb.spp F)))
                    (List.replicate s.robot_steps_.length 0) false).2.1 r]
              else [])) := by
  have hlen : ¬ path.poses.length = 0 := by
    intro h
    exact hne (List.length_eq_zero.mp h)
  simp only [subSegPathCb, hlen, if_false, hg, ho, segLoop_eq_append_map, List.nil_append]

theorem subOdomCb_of_unchanged {R : Type} (C : Components R)
    (s : MultiRobotRouteToPathNode R C) (odom : msgs.Odometry R) (r : Nat) (o : C.Observer)
    (hr : r < s.robot_steps_.length) (ho : s.observer_[r]? = some o)
    (hch : (C.getStep o ⟨odom.position.x, odom.position.y⟩).2.2 = false) :
    subOdomCb C s odom r =
      some ({ s with
                robot_steps_ :=
                  s.robot_steps_.set r (C.getStep o ⟨odom.position.x, odom.position.y⟩).2.1
                observer_ :=
                  s.observer_.set r (C.getStep o ⟨odom.position.x, odom.position.y⟩).1 },
            [Call.getStep r ⟨odom.position.x, odom.position.y⟩
              (C.getStep o ⟨odom.position.x, odom.position.y⟩).2.1 false]) := by
  simp [subOdomCb, ho, hr, hch]

theorem subOdomCb_of_changed {R : Type} (C : Components R)
    (s : MultiRobotRouteToPathNode R C) (odom : msgs.Odometry R) (r : Nat) (o : C.Observer)
    (conv : List C.Converter) (calls : List (Call R))
    (hr : r < s.robot_steps_.length) (ho : s.observer_[r]? = some o)
    (hch : (C.getStep o ⟨odom.position.x, odom.position.y⟩).2.2 = true)
    (hloop : subOdomCb.loop C
        (s.robot_steps_.set r (C.getStep o ⟨odom.position.x, odom.position.y⟩).2.1)
        s.no_robots_ 0 s.converter_ true = some (conv, calls)) :
    subOdomCb C s odom r =
      some ({ s with
                robot_steps_ :=
                  s.robot_steps_.set r (C.getStep o ⟨odom.position.x, odom.position.y⟩).2.1
                observer_ :=
                  s.observer_.set r (C.getStep o ⟨odom.position.x, odom.position.y⟩).1
                converter_ := conv },
            Call.getStep r ⟨odom.position.x, odom.position.y⟩
              (C.getStep o ⟨odom.position.x, odom.position.y⟩).2.1 true :: calls) := by
  simp [subOdomCb, ho, hr, hch, hloop]

/-! ## The sizes are an invariant -/

theorem ctor_sized {R : Type} (C : Components R) (n : Nat) :
    (MultiRobotRouteToPathNode.ctor C n).Sized ∧
      (MultiRobotRouteToPathNode.ctor C n).no_robots_ = n := by
  simp [MultiRobotRouteToPathNode.ctor, MultiRobotRouteToPathNode.Sized]

theorem observer_some_of_sized {R : Type} {C : Components R}
    (s : MultiRobotRouteToPathNode R C) (r : Nat) (hs : s.Sized) (hr : r < s.no_robots_) :
    ∃ o, s.observer_[r]? = some o := by
  have h : r < s.observer_.length := by rw [hs.2.2]; exact hr
  exact ⟨s.observer_[r], List.getElem?_eq_getElem h⟩

theorem converter_some_of_sized {R : Type} {C : Components R}
    (s : MultiRobotRouteToPathNode R C) (r : Nat) (hs : s.Sized) (hr : r < s.no_robots_) :
    ∃ g, s.converter_[r]? = some g := by
  have h : r < s.converter_.length := by rw [hs.2.1]; exact hr
  exact ⟨s.converter_[r], List.getElem?_eq_getElem h⟩

/-- A position update on a sized node always returns, whatever the tracker
reports, and the node stays sized. -/
theorem subOdomCb_total {R : Type} (C : Components R)
    (s : MultiRobotRouteToPathNode R C) (odom : msgs.Odometry R) (r : Nat)
    (hs : s.Sized) (hr : r < s.no_robots_) :
    ∃ s1 calls, subOdomCb C s odom r = some (s1, calls) ∧ s1.Sized ∧
      s1.no_robots_ = s.no_robots_ ∧
      published calls = (gateResults calls).filterMap flaggedPath := by
  obtain ⟨o, ho⟩ := observer_some_of_sized s r hs hr
  have hr1 : r < s.robot_steps_.length := by rw [hs.1]; exact hr
  cases hch : (C.getStep o ⟨odom.position.x, odom.position.y⟩).2.2 with
  | false =>
    refine ⟨_, _, subOdomCb_of_unchanged C s odom r o hr1 ho hch, ?_, rfl, ?_⟩
    · simpa [MultiRobotRouteToPathNode.Sized] using hs
    · simp [published, gateResults]
  | true =>
    obtain ⟨conv, calls, hloop, hlen, _, hpub⟩ :=
      odomLoop_total C (s.robot_steps_.set r (C.getStep o ⟨odom.position.x, odom.position.y⟩).2.1)
        s.no_robots_ 0 s.converter_ true (by rw [hs.2.1]; omega)
    refine ⟨_, _, subOdomCb_of_changed C s odom r o conv calls hr1 ho hch hloop, ?_, rfl, ?_⟩
    · simpa [MultiRobotRouteToPathNode.Sized, hlen] using hs
    · simpa [published, gateResults] using hpub

/-- A segment path delivered to a sized node always returns, and the node
stays sized. -/
theorem subSegPathCb_total {R : Type} (F : FloatOps R) (C : Components R)
    (s : MultiRobotRouteToPathNode R C) (path : msgs.SegmentPath R) (r : Nat)
    (hs : s.Sized) (hr : r < s.no_robots_) :
    ∃ s1 calls, subSegPathCb F C s path r = some (s1, calls) ∧ s1.Sized ∧
      s1.no_robots_ = s.no_robots_ ∧
      published calls = (gateResults calls).filterMap flaggedPath := by
  by_cases hne : path.poses = []
  · refine ⟨s, [], ?_, hs, rfl, rfl⟩
    simp [subSegPathCb, hne]
  · obtain ⟨o, ho⟩ := observer_some_of_sized s r hs hr
    obtain ⟨g, hg⟩ := converter_some_of_sized s r hs hr
    refine ⟨_, _, subSegPathCb_of_nonempty F C s path r g o hne hg ho, ?_, rfl, ?_⟩
    · simpa [MultiRobotRouteToPathNode.Sized] using hs
    · cases hc : (C.updateSync (C.converterInit g (path.poses.map (subSegPathCb.spp F)))
          (List.replicate s.robot_steps_.length 0) false).2.2 <;>
        simp [published, gateResults, flaggedPath, hc]

theorem deliver_sized {R : Type} (F : FloatOps R) (C : Components R)
    (s s1 : MultiRobotRouteToPathNode R C) (e : Event R) (hs : s.Sized)
    (h : deliver F C s e = some s1) : s1.Sized ∧ s1.no_robots_ = s.no_robots_ := by
  cases e with
  | odom r m =>
    by_cases hr : r < s.no_robots_
    · obtain ⟨s2, calls, h2, hs2, hn2, _⟩ := subOdomCb_total C s m r hs hr
      simp only [deliver, h2, Option.map_some', Option.some.injEq] at h
      subst h
      exact ⟨hs2, hn2⟩
    · have hnone : s.observer_[r]? = none := by
        apply List.getElem?_eq_none
        rw [hs.2.2]
        omega
      simp [deliver, subOdomCb, hnone] at h
  | segPath r m =>
    by_cases hr : r < s.no_robots_
    · obtain ⟨s2, calls, h2, hs2, hn2, _⟩ := subSegPathCb_total F C s m r hs hr
      simp only [deliver, h2, Option.map_some', Option.some.injEq] at h
      subst h
      exact ⟨hs2, hn2⟩
    · have hnone : s.converter_[r]? = none := by
        apply List.getElem?_eq_none
        rw [hs.2.1]
        omega
      by_cases hlen : m.poses.length = 0
      · simp only [deliver, subSegPathCb, hlen, if_true, Option.map_some',
          Option.some.injEq] at h
        subst h
        exact ⟨hs, rfl⟩
      · simp [deliver, subSegPathCb, hlen, hnone] at h

/-- Every node state reached from the constructor by delivering events is
sized, with the number of robots the constructor was given. -/
theorem run_sized {R : Type} (F : FloatOps R) (C : Components R) (evs : List (Event R)) :
    ∀ (s s1 : MultiRobotRouteToPathNode R C), s.Sized → run F C evs s = some s1 →
      s1.Sized ∧ s1.no_robots_ = s.no_robots_ := by
  induction evs with
  | nil =>
    intro s s1 hs h
    simp only [run, Option.some.injEq] at h
    subst h
    exact ⟨hs, rfl⟩
  | cons e rest ih =>
    intro s s1 hs h
    cases hd : deliver F C s e with
    | none => simp [run, hd] at h
    | some s2 =>
      simp only [run, hd] at h
      obtain ⟨hs2, hn2⟩ := deliver_sized F C s s2 e hs hd
      obtain ⟨hs1, hn1⟩ := ih s2 s1 hs2 h
      exact ⟨hs1, by rw [hn1, hn2]⟩

/-! ## The sample nodes are reachable -/

theorem sampleNode_reachable :
    run sampleOps specComponents [Event.segPath 1 sampleRoute]
      (MultiRobotRouteToPathNode.ctor specComponents 2) = some sampleNode := by
  rfl

theorem sampleNodeLater_reachable :
    run sampleOps specComponents
      [Event.segPath 1 sampleRoute, Event.odom 1 (sampleOdom 1 0), Event.segPath 0 sampleRoute]
      (MultiRobotRouteToPathNode.ctor specComponents 2) = some sampleNodeLater := by
  rfl

theorem sampleNode_sized : sampleNode.Sized ∧ sampleNodeLater.Sized :=
  ⟨⟨rfl, rfl, rfl⟩, ⟨rfl, rfl, rfl⟩⟩

/-! ## Properties of the handlers -/

/-- C1: a segment path whose segment list is empty is ignored by
`subSegPathCb`, for every robot index and every node state: the handler
returns, the step vector, every tracker and every gate are what they were
before, no collaborator is called and no path is published. -/
theorem subSegPathCb_empty_ignored {R : Type} (F : FloatOps R) (C : Components R)
    (s : MultiRobotRouteToPathNode R C) (r : Nat) :
    ∃ s1 calls, subSegPathCb F C s { poses := [] } r = some (s1, calls) ∧
      s1.robot_steps_ = s.robot_steps_ ∧ s1.observer_ = s.observer_ ∧
      s1.converter_ = s.converter_ ∧ s1 = s ∧ calls = [] ∧ published calls = [] :=
  ⟨s, [], rfl, rfl, rfl, rfl, rfl, rfl, rfl⟩

/-- C2: when the tracker of robot `r` reports `changed = true` on a position
update, `subOdomCb` evaluates the gate of every robot `0 .. no_robots_ - 1`
exactly once and in ascending index, every evaluation receives the same step
vector, and entry `r` of that vector is the step the tracker just returned. -/
theorem subOdomCb_changed_evaluates_all {R : Type} (C : Components R)
    (s : MultiRobotRouteToPathNode R C) (odom : msgs.Odometry R) (r : Nat) (o : C.Observer)
    (hs : s.Sized) (hr : r < s.no_robots_) (ho : s.observer_[r]? = some o)
    (hch : (C.getStep o ⟨odom.position.x, odom.position.y⟩).2.2 = true) :
    ∃ s1 calls, subOdomCb C s odom r = some (s1, calls) ∧
      gateEvals calls = (List.range s.no_robots_).map (fun i => (i, s1.robot_steps_)) ∧
      s1.robot_steps_ =
        s.robot_steps_.set r (C.getStep o ⟨odom.position.x, odom.position.y⟩).2.1 ∧
      s1.robot_steps_[r]? = some (C.getStep o ⟨odom.position.x, odom.position.y⟩).2.1 := by
  have hr1 : r < s.robot_steps_.length := by rw [hs.1]; exact hr
  obtain ⟨conv, calls, hloop, _, hev, _⟩ :=
    odomLoop_total C (s.robot_steps_.set r (C.getStep o ⟨odom.position.x, odom.position.y⟩).2.1)
      s.no_robots_ 0 s.converter_ true (by rw [hs.2.1]; omega)
  refine ⟨_, _, subOdomCb_of_changed C s odom r o conv calls hr1 ho hch hloop, ?_, rfl, ?_⟩
  · simp only [gateEvals]
    rw [hev, List.range_eq_range']
  · simp [hr1]

theorem subOdomCb_changed_evaluates_all_witness :
    ∃ s1 calls, subOdomCb specComponents sampleNode (sampleOdom 1 0) 1 = some (s1, calls) ∧
      gateEvals calls = (List.range 2).map (fun i => (i, s1.robot_steps_)) ∧
      s1.robot_steps_ = [0, 1] ∧ s1.robot_steps_[1]? = some 1 :=
  subOdomCb_changed_evaluates_all specComponents sampleNode (sampleOdom 1 0) 1 sampleTracker
    sampleNode_sized.1 (by decide) rfl rfl

/-- C6: when the tracker of robot `r` reports `changed = false` on a position
update, `subOdomCb` returns having evaluated no gate and published no path;
its only call is the one to the tracker, and every gate is left as it was. -/
theorem subOdomCb_unchanged_no_pass {R : Type} (C : Components R)
    (s : MultiRobotRouteToPathNode R C) (odom : msgs.Odometry R) (r : Nat) (o : C.Observer)
    (hs : s.Sized) (hr : r < s.no_robots_) (ho : s.observer_[r]? = some o)
    (hch : (C.getStep o ⟨odom.position.x, odom.position.y⟩).2.2 = false) :
    ∃ s1 calls, subOdomCb C s odom r = some (s1, calls) ∧
      gateEvals calls = [] ∧ published calls = [] ∧ s1.converter_ = s.converter_ ∧
      calls = [Call.getStep r ⟨odom.position.x, odom.position.y⟩
        (C.getStep o ⟨odom.position.x, odom.position.y⟩).2.1 false] := by
  have hr1 : r < s.robot_steps_.length := by rw [hs.1]; exact hr
  exact ⟨_, _, subOdomCb_of_unchanged C s odom r o hr1 ho hch, rfl, rfl, rfl, rfl⟩

theorem subOdomCb_unchanged_no_pass_witness :
    ∃ s1 calls, subOdomCb specComponents sampleNode (sampleOdom 9 9) 1 = some (s1, calls) ∧
      gateEvals calls = [] ∧ published calls = [] ∧ s1.converter_ = sampleNode.converter_ ∧
      calls = [Call.getStep 1 ⟨9, 9⟩ 0 false] :=
  subOdomCb_unchanged_no_pass specComponents sampleNode (sampleOdom 9 9) 1 sampleTracker
    sampleNode_sized.1 (by decide) rfl rfl

/-- C10: for every list of points passed to `publishPath`, the published
path has exactly one pose per point, in the same order, and the position
`x`, `y` of the `i`-th pose are components 0 and 1 of the `i`-th point; for
the empty list the published path has no poses. -/
theorem publishPath_one_pose_per_point {R : Type} (F : FloatOps R) (_p : List (Vector3d R))
    (_topic : Nat) :
    (publishPath F _p _topic).2.poses.length = _p.length ∧
      (publishPath F _p _topic).2.poses.map (fun ps => (ps.pose.position.x, ps.pose.position.y)) =
        _p.map (fun p => (p.c0, p.c1)) ∧
      (∀ (i : Nat) (p : Vector3d R), _p[i]? = some p →
        ∃ ps, (publishPath F _p _topic).2.poses[i]? = some ps ∧
          ps.pose.position.x = p.c0 ∧ ps.pose.position.y = p.c1) ∧
      (publishPath F [] _topic).2.poses = [] ∧ (publishPath F _p _topic).1 = _topic := by
  have hmap : (publishPath F _p _topic).2.poses.map
      (fun ps => (ps.pose.position.x, ps.pose.position.y)) = _p.map (fun p => (p.c0, p.c1)) := by
    simp [publishPath, publishLoop_positions]
  have hlen : (publishPath F _p _topic).2.poses.length = _p.length := by
    have h := congrArg List.length hmap
    simpa using h
  refine ⟨hlen, hmap, ?_, rfl, rfl⟩
  intro i p hp
  have hi : i < _p.length := by
    rcases Nat.lt_or_ge i _p.length with h | h
    · exact h
    · rw [List.getElem?_eq_none h] at hp
      cases hp
  have hi1 : i < (publishPath F _p _topic).2.poses.length := by rw [hlen]; exact hi
  refine ⟨(publishPath F _p _topic).2.poses[i], List.getElem?_eq_getElem hi1, ?_⟩
  have h1 := congrArg (fun l => l[i]?) hmap
  simp only [List.getElem?_map, hp, List.getElem?_eq_getElem hi1, Option.map_some] at h1
  have h2 := Option.some.inj h1
  exact ⟨congrArg Prod.fst h2, congrArg Prod.snd h2⟩

/-- C3, as the code has it: a non-empty segment path for robot `r` makes
`subSegPathCb` evaluate the gate of robot `r` only, exactly once, on the step
vector after the reset (all zeros); the gate of no other robot is
evaluated. -/
theorem subSegPathCb_evaluates_own_gate_only {R : Type} (F : FloatOps R) (C : Components R)
    (s : MultiRobotRouteToPathNode R C) (path : msgs.SegmentPath R) (r : Nat)
    (hne : path.poses ≠ []) (hs : s.Sized) (hr : r < s.no_robots_) :
    ∃ s1 calls, subSegPathCb F C s path r = some (s1, calls) ∧
      gateEvals calls = [(r, s1.robot_steps_)] ∧
      s1.robot_steps_ = List.replicate s.no_robots_ 0 ∧
      ∀ (j : Nat) (steps : List Int), (j, steps) ∈ gateEvals calls → j = r := by
  obtain ⟨o, ho⟩ := observer_some_of_sized s r hs hr
  obtain ⟨g, hg⟩ := converter_some_of_sized s r hs hr
  refine ⟨_, _, subSegPathCb_of_nonempty F C s path r g o hne hg ho, ?_, ?_, ?_⟩
  · cases hc : (C.updateSync (C.converterInit g (path.poses.map (subSegPathCb.spp F)))
        (List.replicate s.robot_steps_.length 0) false).2.2 <;> simp [gateEvals]
  · simp [hs.1]
  · intro j steps hj
    cases hc : (C.updateSync (C.converterInit g (path.poses.map (subSegPathCb.spp F)))
        (List.replicate s.robot_steps_.length 0) false).2.2 <;>
      simp [gateEvals, hc] at hj <;> exact hj.1

theorem subSegPathCb_evaluates_own_gate_only_witness :
    ∃ s1 calls, subSegPathCb sampleOps specComponents sampleNode sampleRoute 0 = some (s1, calls) ∧
      gateEvals calls = [(0, s1.robot_steps_)] ∧
      s1.robot_steps_ = List.replicate 2 0 ∧
      ∀ (j : Nat) (steps : List Int), (j, steps) ∈ gateEvals calls → j = 0 :=
  subSegPathCb_evaluates_own_gate_only sampleOps specComponents sampleNode sampleRoute 0
    (by decide) sampleNode_sized.1 (by decide)

/-- C3 as stated fails: on the two-robot node, a non-empty segment path for
robot 0 evaluates the gate of robot 0 alone; the gate of robot 1 is not
evaluated, so the evaluations are not those of the pass of `subOdomCb`. -/
theorem subSegPathCb_skips_other_gates :
    ∃ s1 calls, subSegPathCb sampleOps specComponents sampleNode sampleRoute 0 = some (s1, calls) ∧
      gateEvals calls = [(0, [0, 0])] ∧
      (∀ steps : List Int, (1, steps) ∉ gateEvals calls) ∧
      gateEvals calls ≠ (List.range 2).map (fun i => (i, s1.robot_steps_)) := by
  refine ⟨_, _, rfl, rfl, ?_, ?_⟩
  · intro steps h
    have h1 : (1, steps) ∈ [((0 : Nat), ([0, 0] : List Int))] := h
    simp at h1
  · intro h
    have h1 := congrArg List.length h
    revert h1
    decide

/-- C4, as the code has it: a non-empty segment path for robot `r` sets every
entry of `robot_steps_` to 0, the entry of robot `r` and the entry of every
other robot alike, and keeps the length of the vector. -/
theorem subSegPathCb_resets_every_step {R : Type} (F : FloatOps R) (C : Components R)
    (s : MultiRobotRouteToPathNode R C) (path : msgs.SegmentPath R) (r : Nat)
    (hne : path.poses ≠ []) (hs : s.Sized) (hr : r < s.no_robots_) :
    ∃ s1 calls, subSegPathCb F C s path r = some (s1, calls) ∧
      s1.robot_steps_.length = s.robot_steps_.length ∧
      s1.robot_steps_[r]? = some 0 ∧
      ∀ j : Nat, j < s.no_robots_ → s1.robot_steps_[j]? = some 0 := by
  obtain ⟨o, ho⟩ := observer_some_of_sized s r hs hr
  obtain ⟨g, hg⟩ := converter_some_of_sized s r hs hr
  have hall : ∀ j : Nat, j < s.no_robots_ →
      (List.replicate s.robot_steps_.length (0 : Int))[j]? = some 0 := by
    intro j hj
    have hj1 : j < s.robot_steps_.length := by rw [hs.1]; exact hj
    simp [List.getElem?_replicate, hj1]
  exact ⟨_, _, subSegPathCb_of_nonempty F C s path r g o hne hg ho, by simp, hall r hr, hall⟩

theorem subSegPathCb_resets_every_step_witness :
    ∃ s1 calls, subSegPathCb sampleOps specComponents sampleNode sampleRoute 0 = some (s1, calls) ∧
      s1.robot_steps_.length = sampleNode.robot_steps_.length ∧
      s1.robot_steps_[0]? = some 0 ∧
      ∀ j : Nat, j < 2 → s1.robot_steps_[j]? = some 0 :=
  subSegPathCb_resets_every_step sampleOps specComponents sampleNode sampleRoute 0
    (by decide) sampleNode_sized.1 (by decide)

/-- C4 as stated fails: after `sampleRoute` is assigned to robot 1 and robot 1
reaches step 1, its entry of the step vector is 1; assigning a route to
robot 0 then sets the entry of robot 1 to 0, although robot 1 keeps its
plan. -/
theorem subSegPathCb_resets_other_robot :
    ∃ s0 s1 calls,
      run sampleOps specComponents [Event.segPath 1 sampleRoute, Event.odom 1 (sampleOdom 1 0)]
        (MultiRobotRouteToPathNode.ctor specComponents 2) = some s0 ∧
      subSegPathCb sampleOps specComponents s0 sampleRoute 0 = some (s1, calls) ∧
      s0.robot_steps_[1]? = some 1 ∧ s1.robot_steps_[1]? = some 0 ∧
      s1.observer_[1]? = s0.observer_[1]? :=
  ⟨_, _, _, rfl, rfl, rfl, rfl, rfl⟩

/-- C5, as the code has it: when the tracker of robot `r` reports
`changed = false`, `subOdomCb` still writes the returned step into entry `r`
of `robot_steps_`; every other entry keeps its value, and the vector is the
same as before exactly when entry `r` already held the returned step. -/
theorem subOdomCb_unchanged_writes_entry {R : Type} (C : Components R)
    (s : MultiRobotRouteToPathNode R C) (odom : msgs.Odometry R) (r : Nat) (o : C.Observer)
    (hs : s.Sized) (hr : r < s.no_robots_) (ho : s.observer_[r]? = some o)
    (hch : (C.getStep o ⟨odom.position.x, odom.position.y⟩).2.2 = false) :
    ∃ s1 calls, subOdomCb C s odom r = some (s1, calls) ∧
      s1.robot_steps_ =
        s.robot_steps_.set r (C.getStep o ⟨odom.position.x, odom.position.y⟩).2.1 ∧
      (∀ j : Nat, j ≠ r → s1.robot_steps_[j]? = s.robot_steps_[j]?) ∧
      (s1.robot_steps_ = s.robot_steps_ ↔
        s.robot_steps_[r]? = some (C.getStep o ⟨odom.position.x, odom.position.y⟩).2.1) := by
  have hr1 : r < s.robot_steps_.length := by rw [hs.1]; exact hr
  refine ⟨_, _, subOdomCb_of_unchanged C s odom r o hr1 ho hch, rfl, ?_, ?_⟩
  · intro j hj
    simp [List.getElem?_set, Ne.symm hj]
  · constructor
    · intro h
      have h1 := congrArg (fun l => l[r]?) h
      simp only [List.getElem?_set, hr1, if_true] at h1
      simpa using h1.symm
    · intro h
      apply List.ext_getElem?
      intro j
      by_cases hj : r = j
      · subst hj
        simp [List.getElem?_set, hr1, h]
      · simp [List.getElem?_set, hj]

theorem subOdomCb_unchanged_writes_entry_witness :
    ∃ s1 calls, subOdomCb specComponents sampleNode (sampleOdom 9 9) 1 = some (s1, calls) ∧
      s1.robot_steps_ = sampleNode.robot_steps_.set 1 0 ∧
      (∀ j : Nat, j ≠ 1 → s1.robot_steps_[j]? = sampleNode.robot_steps_[j]?) ∧
      (s1.robot_steps_ = sampleNode.robot_steps_ ↔ sampleNode.robot_steps_[1]? = some 0) :=
  subOdomCb_unchanged_writes_entry specComponents sampleNode (sampleOdom 9 9) 1 sampleTracker
    sampleNode_sized.1 (by decide) rfl rfl

/-- C5 as stated fails: the node reached by assigning `sampleRoute` to robot
1, moving robot 1 to step 1 and assigning `sampleRoute` to robot 0 has step
vector `[0, 0]`; a position of robot 1 outside every tolerance then makes the
tracker report `changed = false` with step 1, and `subOdomCb` leaves the
step vector `[0, 1]`. -/
theorem subOdomCb_unchanged_modifies_steps :
    ∃ s0 s1 calls,
      run sampleOps specComponents
        [Event.segPath 1 sampleRoute, Event.odom 1 (sampleOdom 1 0), Event.segPath 0 sampleRoute]
        (MultiRobotRouteToPathNode.ctor specComponents 2) = some s0 ∧
      subOdomCb specComponents s0 (sampleOdom 9 9) 1 = some (s1, calls) ∧
      calls = [Call.getStep 1 ⟨9, 9⟩ 1 false] ∧
      s0.robot_steps_ = [0, 0] ∧ s1.robot_steps_ = [0, 1] ∧
      s1.robot_steps_ ≠ s0.robot_steps_ :=
  ⟨_, _, _, rfl, rfl, rfl, rfl, rfl, by decide⟩

theorem mem_filterMap_flaggedPath {R : Type} (l : List (Nat × List (Vector3d R) × Bool))
    (i : Nat) (p : List (Vector3d R)) :
    (i, p) ∈ l.filterMap flaggedPath ↔ (i, p, true) ∈ l := by
  simp only [List.mem_filterMap, flaggedPath]
  constructor
  · rintro ⟨⟨j, q, b⟩, hmem, h⟩
    cases b with
    | false => simp at h
    | true =>
      simp only [if_true, Option.some.injEq, Prod.mk.injEq] at h
      obtain ⟨rfl, rfl⟩ := h
      exact hmem
  · intro h
    exact ⟨(i, p, true), h, by simp⟩

/-- Whatever a gate guarantees of every path it flags (`P`), the loop of
`subOdomCb` publishes for robot `j` only a path with that guarantee, for the
gate robot `j` had when the loop was entered. -/
theorem odomLoop_published {R : Type} (C : Components R)
    (P : C.Converter → List (Vector3d R) → Prop)
    (hP : ∀ (g : C.Converter) (steps : List Int) (c : Bool),
      (C.updateSync g steps c).2.2 = true → P g (C.updateSync g steps c).2.1)
    (robot_steps : List Int) :
    ∀ (k i : Nat) (conv : List C.Converter) (changed : Bool) (conv1 : List C.Converter)
      (calls : List (Call R)),
      subOdomCb.loop C robot_steps k i conv changed = some (conv1, calls) →
      ∀ (j : Nat) (p : List (Vector3d R)), (j, p) ∈ published calls →
        i ≤ j ∧ ∃ g, conv[j]? = some g ∧ P g p := by
  intro k
  induction k with
  | zero =>
    intro i conv changed conv1 calls h j p hj
    simp only [subOdomCb.loop, Option.some.injEq, Prod.mk.injEq] at h
    rw [← h.2] at hj
    simp [published] at hj
  | succ k ih =>
    intro i conv changed conv1 calls h j p hj
    cases hg : conv[i]? with
    | none => simp [subOdomCb.loop, hg] at h
    | some g =>
      cases hrec : subOdomCb.loop C robot_steps k (i + 1)
          (conv.set i (C.updateSync g robot_steps changed).1)
          (C.updateSync g robot_steps changed).2.2 with
      | none => simp [subOdomCb.loop, hg, hrec] at h
      | some res =>
        obtain ⟨conv2, rest⟩ := res
        simp only [subOdomCb.loop, hg, hrec, Option.some.injEq, Prod.mk.injEq] at h
        rw [← h.2, published_append] at hj
        rcases List.mem_append.mp hj with hhere | hrest
        · cases hc : (C.updateSync g robot_steps changed).2.2 with
          | false => simp [published, hc] at hhere
          | true =>
            simp only [published, hc, if_true, List.mem_singleton, Prod.mk.injEq] at hhere
            obtain ⟨rfl, rfl⟩ := hhere
            exact ⟨Nat.le_refl _, g, hg, hP g robot_steps changed hc⟩
        · obtain ⟨hle, g2, hg2, hp2⟩ := ih (i + 1) _ _ conv2 rest hrec j p hrest
          have hne : i ≠ j := by omega
          refine ⟨by omega, g2, ?_, hp2⟩
          rw [← hg2]
          simp [List.getElem?_set, hne]

/-- Whatever a gate guarantees of every path it flags (`P`), `subOdomCb`
publishes for robot `j` only a path with that guarantee, for the gate robot
`j` had before the event. -/
theorem subOdomCb_published {R : Type} (C : Components R)
    (P : C.Converter → List (Vector3d R) → Prop)
    (hP : ∀ (g : C.Converter) (steps : List Int) (c : Bool),
      (C.updateSync g steps c).2.2 = true → P g (C.updateSync g steps c).2.1)
    (s s1 : MultiRobotRouteToPathNode R C) (odom : msgs.Odometry R) (r : Nat)
    (calls : List (Call R)) (h : subOdomCb C s odom r = some (s1, calls))
    (j : Nat) (p : List (Vector3d R)) (hj : (j, p) ∈ published calls) :
    ∃ g, s.converter_[j]? = some g ∧ P g p := by
  cases ho : s.observer_[r]? with
  | none => simp [subOdomCb, ho] at h
  | some o =>
    by_cases hr : r < s.robot_steps_.length
    · cases hch : (C.getStep o ⟨odom.position.x, odom.position.y⟩).2.2 with
      | false =>
        rw [subOdomCb_of_unchanged C s odom r o hr ho hch] at h
        simp only [Option.some.injEq, Prod.mk.injEq] at h
        rw [← h.2] at hj
        simp [published] at hj
      | true =>
        cases hloop : subOdomCb.loop C
            (s.robot_steps_.set r (C.getStep o ⟨odom.position.x, odom.position.y⟩).2.1)
            s.no_robots_ 0 s.converter_ true with
        | none => simp [subOdomCb, ho, hr, hch, hloop] at h
        | some res =>
          obtain ⟨conv, rest⟩ := res
          rw [subOdomCb_of_changed C s odom r o conv rest hr ho hch hloop] at h
          simp only [Option.some.injEq, Prod.mk.injEq] at h
          rw [← h.2] at hj
          exact (odomLoop_published C P hP _ _ _ _ _ _ _ hloop j p
            (by simpa [published] using hj)).2
    · simp [subOdomCb, ho, hr] at h

/-- Whatever a gate guarantees of every path it flags (`P`), `subSegPathCb`
publishes only for the robot of the event and only a path with that
guarantee, for the gate as initialised with the new point sequence. -/
theorem subSegPathCb_published {R : Type} (F : FloatOps R) (C : Components R)
    (P : C.Converter → List (Vector3d R) → Prop)
    (hP : ∀ (g : C.Converter) (steps : List Int) (c : Bool),
      (C.updateSync g steps c).2.2 = true → P g (C.updateSync g steps c).2.1)
    (s s1 : MultiRobotRouteToPathNode R C) (path : msgs.SegmentPath R) (r : Nat)
    (calls : List (Call R)) (h : subSegPathCb F C s path r = some (s1, calls))
    (j : Nat) (p : List (Vector3d R)) (hj : (j, p) ∈ published calls) :
    j = r ∧ ∃ g, s.converter_[r]? = some g ∧
      P (C.converterInit g (path.poses.map (subSegPathCb.spp F))) p := by
  by_cases hne : path.poses = []
  · simp only [subSegPathCb, hne, List.length_nil, if_true, Option.some.injEq,
      Prod.mk.injEq] at h
    rw [← h.2] at hj
    simp [published] at hj
  · have hlen : ¬ path.poses.length = 0 := fun hl => hne (List.length_eq_zero.mp hl)
    cases hg : s.converter_[r]? with
    | none => simp [subSegPathCb, hlen, hg] at h
    | some g =>
      cases ho : s.observer_[r]? with
      | none => simp [subSegPathCb, hlen, hg, ho] at h
      | some o =>
        rw [subSegPathCb_of_nonempty F C s path r g o hne hg ho] at h
        simp only [Option.some.injEq, Prod.mk.injEq] at h
        rw [← h.2] at hj
        cases hc : (C.updateSync (C.converterInit g (path.poses.map (subSegPathCb.spp F)))
            (List.replicate s.robot_steps_.length 0) false).2.2 with
        | false => simp [published, hc] at hj
        | true =>
          simp only [published, hc, if_true, List.cons_append, List.nil_append,
            List.mem_singleton, Prod.mk.injEq] at hj
          obtain ⟨rfl, rfl⟩ := hj
          exact ⟨rfl, g, rfl, hP _ _ _ hc⟩

/-- The gate of spec sections 4.2 and 4.3 sets `changed` only on a path that
is non-empty and differs from the path it emitted last. -/
theorem specGate_flags_new_nonempty (g : SpecGate) (steps : List Int) (c : Bool)
    (h : (SpecGate.updateSync g steps c).2.2 = true) :
    (SpecGate.updateSync g steps c).2.1 ≠ [] ∧
      (SpecGate.updateSync g steps c).2.1 ≠ g.lastEmitted := by
  have hpath : (SpecGate.updateSync g steps c).2.1 = g.computeUnlockedPath steps := by
    unfold SpecGate.updateSync
    dsimp only
    split <;> rfl
  have hflag : (SpecGate.updateSync g steps c).2.2 =
      (!(g.computeUnlockedPath steps).isEmpty &&
        decide (g.computeUnlockedPath steps ≠ g.lastEmitted)) := by
    unfold SpecGate.updateSync
    dsimp only
    cases hb : (!(g.computeUnlockedPath steps).isEmpty &&
        decide (g.computeUnlockedPath steps ≠ g.lastEmitted)) <;> rfl
  rw [hpath]
  rw [hflag] at h
  simp only [Bool.and_eq_true, Bool.not_eq_true', decide_eq_true_eq] at h
  refine ⟨?_, h.2⟩
  intro hnil
  rw [hnil] at h
  simp at h

/-- C7: with the gate of spec sections 4.2 and 4.3 behind `converter_`, both
`subOdomCb` and `subSegPathCb` return, and `publishPath` is called for a
robot only for a gate result of that robot whose `changed` flag is set and
whose path is non-empty and differs from the path the gate emitted last; no
published path has length 0. -/
theorem handlers_publish_nonempty (F : FloatOps Int)
    (s : MultiRobotRouteToPathNode Int specComponents) (odom : msgs.Odometry Int)
    (path : msgs.SegmentPath Int) (r : Nat) (hs : s.Sized) (hr : r < s.no_robots_) :
    (∃ s1 calls, subOdomCb specComponents s odom r = some (s1, calls) ∧
      ∀ (i : Nat) (p : List (Vector3d Int)), (i, p) ∈ published calls →
        (i, p, true) ∈ gateResults calls ∧ p ≠ [] ∧ p.length ≠ 0 ∧
          ∃ g : SpecGate, s.converter_[i]? = some g ∧ p ≠ g.lastEmitted) ∧
    (∃ s1 calls, subSegPathCb F specComponents s path r = some (s1, calls) ∧
      ∀ (i : Nat) (p : List (Vector3d Int)), (i, p) ∈ published calls →
        (i, p, true) ∈ gateResults calls ∧ p ≠ [] ∧ p.length ≠ 0 ∧ i = r ∧
          ∃ g : SpecGate, s.converter_[r]? = some g ∧
            p ≠ (SpecGate.init g (path.poses.map (subSegPathCb.spp F))).lastEmitted) := by
  constructor
  · obtain ⟨s1, calls, h, _, _, hpub⟩ := subOdomCb_total specComponents s odom r hs hr
    refine ⟨s1, calls, h, ?_⟩
    intro i p hip
    obtain ⟨g, hg, hne, hlast⟩ :=
      subOdomCb_published specComponents (fun g q => q ≠ [] ∧ q ≠ SpecGate.lastEmitted g)
        specGate_flags_new_nonempty s s1 odom r calls h i p hip
    refine ⟨?_, hne, ?_, g, hg, hlast⟩
    · rw [hpub] at hip
      exact (mem_filterMap_flaggedPath _ i p).mp hip
    · intro h0
      exact hne (List.length_eq_zero.mp h0)
  · obtain ⟨s1, calls, h, _, _, hpub⟩ := subSegPathCb_total F specComponents s path r hs hr
    refine ⟨s1, calls, h, ?_⟩
    intro i p hip
    obtain ⟨hir, g, hg, hne, hlast⟩ :=
      subSegPathCb_published F specComponents (fun g q => q ≠ [] ∧ q ≠ SpecGate.lastEmitted g)
        specGate_flags_new_nonempty s s1 path r calls h i p hip
    refine ⟨?_, hne, ?_, hir, g, hg, hlast⟩
    · rw [hpub] at hip
      exact (mem_filterMap_flaggedPath _ i p).mp hip
    · intro h0
      exact hne (List.length_eq_zero.mp h0)

/-- On the node where both robots hold `sampleRoute`, the position `(1, 0)`
of robot 0 unlocks the second point of both robots and a new route for robot
0 unlocks its first point: paths are published in both handlers, and each
one is non-empty. -/
theorem handlers_publish_nonempty_witness :
    ((∃ s1 calls, subOdomCb specComponents sampleNodeLater (sampleOdom 1 0) 0 =
        some (s1, calls) ∧
      ∀ (i : Nat) (p : List (Vector3d Int)), (i, p) ∈ published calls →
        (i, p, true) ∈ gateResults calls ∧ p ≠ [] ∧ p.length ≠ 0 ∧
          ∃ g : SpecGate, sampleNodeLater.converter_[i]? = some g ∧ p ≠ g.lastEmitted) ∧
    (∃ s1 calls, subSegPathCb sampleOps specComponents sampleNodeLater sampleRoute 0 =
        some (s1, calls) ∧
      ∀ (i : Nat) (p : List (Vector3d Int)), (i, p) ∈ published calls →
        (i, p, true) ∈ gateResults calls ∧ p ≠ [] ∧ p.length ≠ 0 ∧ i = 0 ∧
          ∃ g : SpecGate, sampleNodeLater.converter_[0]? = some g ∧
            p ≠ (SpecGate.init g (sampleRoute.poses.map
              (subSegPathCb.spp sampleOps))).lastEmitted)) ∧
    (subOdomCb specComponents sampleNodeLater (sampleOdom 1 0) 0).map
        (fun res => published res.2) = some [(0, [⟨2, 0, 0⟩]), (1, [⟨2, 0, 0⟩])] ∧
    (subSegPathCb sampleOps specComponents sampleNodeLater sampleRoute 0).map
        (fun res => published res.2) = some [(0, [⟨1, 0, 0⟩])] :=
  ⟨handlers_publish_nonempty sampleOps sampleNodeLater (sampleOdom 1 0) sampleRoute 0
    sampleNode_sized.2 (by decide), rfl, rfl⟩

/-- C8: for a non-empty segment path, the point sequence handed to
`converter_[r].init` and the segment sequence handed to `observer_[r].init`
both have the length of the message and are paired by index: segment `i` has
the start, end and width of message segment `i`, and point `i` has as `x`, `y`
the goal (end) of segment `i`. -/
theorem subSegPathCb_plan_paired {R : Type} (F : FloatOps R) (C : Components R)
    (s : MultiRobotRouteToPathNode R C) (path : msgs.SegmentPath R) (r : Nat)
    (hne : path.poses ≠ []) (hs : s.Sized) (hr : r < s.no_robots_) :
    ∃ s1 localPath segPath rest,
      subSegPathCb F C s path r =
        some (s1, Call.converterInit r localPath :: Call.observerInit r segPath :: rest) ∧
      localPath.length = path.poses.length ∧ segPath.length = path.poses.length ∧
      ∀ (i : Nat) (seg : msgs.PathSegment R), path.poses[i]? = some seg →
        ∃ ps spp, segPath[i]? = some ps ∧ localPath[i]? = some spp ∧
          ps.start = ⟨seg.start.x, seg.start.y⟩ ∧ ps.goal = ⟨seg.end_.x, seg.end_.y⟩ ∧
          ps.width = seg.width ∧
          spp.p.c0 = seg.end_.x ∧ spp.p.c1 = seg.end_.y ∧
          spp.p.c0 = ps.goal.c0 ∧ spp.p.c1 = ps.goal.c1 := by
  obtain ⟨o, ho⟩ := observer_some_of_sized s r hs hr
  obtain ⟨g, hg⟩ := converter_some_of_sized s r hs hr
  refine ⟨_, _, _, _, subSegPathCb_of_nonempty F C s path r g o hne hg ho, by simp, by simp, ?_⟩
  intro i seg hseg
  refine ⟨subSegPathCb.ps seg, subSegPathCb.spp F seg, ?_, ?_, rfl, rfl, rfl, rfl, rfl, rfl, rfl⟩
  · simp [List.getElem?_map, hseg]
  · simp [List.getElem?_map, hseg]

theorem subSegPathCb_plan_paired_witness :
    ∃ s1 localPath segPath rest,
      subSegPathCb sampleOps specComponents sampleNode sampleRoute 0 =
        some (s1, Call.converterInit 0 localPath :: Call.observerInit 0 segPath :: rest) ∧
      localPath.length = sampleRoute.poses.length ∧ segPath.length = sampleRoute.poses.length ∧
      ∀ (i : Nat) (seg : msgs.PathSegment Int), sampleRoute.poses[i]? = some seg →
        ∃ ps spp, segPath[i]? = some ps ∧ localPath[i]? = some spp ∧
          ps.start = ⟨seg.start.x, seg.start.y⟩ ∧ ps.goal = ⟨seg.end_.x, seg.end_.y⟩ ∧
          ps.width = seg.width ∧
          spp.p.c0 = seg.end_.x ∧ spp.p.c1 = seg.end_.y ∧
          spp.p.c0 = ps.goal.c0 ∧ spp.p.c1 = ps.goal.c1 :=
  subSegPathCb_plan_paired sampleOps specComponents sampleNode sampleRoute 0
    (by decide) sampleNode_sized.1 (by decide)

/-- C9: for every segment `i` of a non-empty segment path, the precondition
list of point `i` handed to `converter_[r].init` has the length of the
message segment's precondition list and the same order: its `k`-th entry has
`robot_no` equal to the `k`-th message precondition's `robotId` and `step`
equal to its `stepCondition`; nothing is dropped, added or moved to another
point. -/
theorem subSegPathCb_preconditions_kept {R : Type} (F : FloatOps R) (C : Components R)
    (s : MultiRobotRouteToPathNode R C) (path : msgs.SegmentPath R) (r : Nat)
    (hne : path.poses ≠ []) (hs : s.Sized) (hr : r < s.no_robots_) :
    ∃ s1 localPath rest,
      subSegPathCb F C s path r = some (s1, Call.converterInit r localPath :: rest) ∧
      localPath.length = path.poses.length ∧
      ∀ (i : Nat) (seg : msgs.PathSegment R), path.poses[i]? = some seg →
        ∃ spp, localPath[i]? = some spp ∧
          spp.sync.length = seg.preconditions.length ∧
          spp.sync.map (fun q => (q.robot_no, q.step)) =
            seg.preconditions.map (fun pc => (pc.robotId, pc.stepCondition)) ∧
          ∀ (k : Nat) (pc : msgs.PathPrecondition), seg.preconditions[k]? = some pc →
            spp.sync[k]? = some { robot_no := pc.robotId, step := pc.stepCondition } := by
  obtain ⟨o, ho⟩ := observer_some_of_sized s r hs hr
  obtain ⟨g, hg⟩ := converter_some_of_sized s r hs hr
  refine ⟨_, _, _, subSegPathCb_of_nonempty F C s path r g o hne hg ho, by simp, ?_⟩
  intro i seg hseg
  refine ⟨subSegPathCb.spp F seg, ?_, ?_, ?_, ?_⟩
  · simp [List.getElem?_map, hseg]
  · simp [subSegPathCb.spp, syncLoop_eq_append_map]
  · simp [subSegPathCb.spp, syncLoop_eq_append_map]
  · intro k pc hpc
    simp [subSegPathCb.spp, syncLoop_eq_append_map, List.getElem?_map, hpc]

theorem subSegPathCb_preconditions_kept_witness :
    ∃ s1 localPath rest,
      subSegPathCb sampleOps specComponents sampleNode sampleRoute 0 =
        some (s1, Call.converterInit 0 localPath :: rest) ∧
      localPath.length = sampleRoute.poses.length ∧
      ∀ (i : Nat) (seg : msgs.PathSegment Int), sampleRoute.poses[i]? = some seg →
        ∃ spp, localPath[i]? = some spp ∧
          spp.sync.length = seg.preconditions.length ∧
          spp.sync.map (fun q => (q.robot_no, q.step)) =
            seg.preconditions.map (fun pc => (pc.robotId, pc.stepCondition)) ∧
          ∀ (k : Nat) (pc : msgs.PathPrecondition), seg.preconditions[k]? = some pc →
            spp.sync[k]? = some { robot_no := pc.robotId, step := pc.stepCondition } :=
  subSegPathCb_preconditions_kept sampleOps specComponents sampleNode sampleRoute 0
    (by decide) sampleNode_sized.1 (by decide)

end tuw_multi_robot_route_to_path
